import Mathlib

/-!
Verification development for the `ismylandlordshady` ingestion / scoring
pipeline (Python backend).  The Python and SQL code is shallowly embedded:

* SQL `float` / `numeric` and Python `float` arithmetic are modelled by exact
  rationals (`Rat`); `ROUND(x::numeric, 2)` and Python `round(x, 2)` are both
  modelled by the same `round2` function.
* database tables are modelled as lists of rows; SQL joins, `GROUP BY` and
  aggregates are spelled out as list operations.
* `None` / SQL `NULL` is `Option.none`.

Each section names the source file and function it embeds.
-/

/-! ### Scoring formulas, `app/services/scoring.py` -/

/-- Units divisor of the per-building Python path, `_compute_building_score`:
`units = max(building.total_units or 1, 1)`.  Python `or` replaces both
`None` and the falsy `0` by `1`. -/
def units_py (total_units : Option Int) : Int :=
  max (match total_units with
       | none => 1
       | some n => if n = 0 then 1 else n) 1

/-- Units divisor of the set-based SQL path, `compute_all_scores`:
`GREATEST(COALESCE(total_units, 1), 1)`. -/
def units_sql (total_units : Option Int) : Int :=
  max (total_units.getD 1) 1

/-- Embedding of `ScoringService._score_to_grade`. -/
def score_to_grade (score : Rat) : String :=
  if score < 20 then "A"
  else if score < 40 then "B"
  else if score < 60 then "C"
  else if score < 80 then "D"
  else "F"

/-- Grade `CASE` expression of the building-score `INSERT` in
`compute_all_scores`. -/
def building_grade_sql (overall_score : Rat) : String :=
  if overall_score < 20 then "A"
  else if overall_score < 40 then "B"
  else if overall_score < 60 then "C"
  else if overall_score < 80 then "D"
  else "F"

/-- Grade `CASE` expression of the portfolio `UPDATE` in
`compute_portfolio_scores`. -/
def portfolio_grade_sql (avg_score : Rat) : String :=
  if avg_score < 20 then "A"
  else if avg_score < 40 then "B"
  else if avg_score < 60 then "C"
  else if avg_score < 80 then "D"
  else "F"

/-- Embedding of `ScoringService._compute_violation_score`
(`CLASS_C_POINTS = 10`, `CLASS_B_POINTS = 5`, `CLASS_A_POINTS = 1`). -/
def compute_violation_score (classC classB classA : Int) (units : Int) : Rat :=
  let raw_points : Rat := (classC : Rat) * 10 + (classB : Rat) * 5 + (classA : Rat) * 1
  let per_unit : Rat := raw_points / (units : Rat)
  min (per_unit * 10) 100

/-- Embedding of `ScoringService._compute_complaints_score`
(`COMPLAINTS_MULTIPLIER = 20`). -/
def compute_complaints_score (count : Int) (units : Int) : Rat :=
  let per_unit : Rat := (count : Rat) / (units : Rat)
  min (per_unit * 20) 100

/-- Embedding of `ScoringService._compute_eviction_score`
(`EVICTION_MULTIPLIER = 50`). -/
def compute_eviction_score (count : Int) (units : Int) : Rat :=
  let per_unit : Rat := (count : Rat) / (units : Rat)
  min (per_unit * 50) 100

/-- Embedding of `ScoringService._compute_ownership_score`.  The database row
fetched by its `LIMIT 1` query is abstracted to
`Option (is_llc, total_buildings)`; Python truthiness of the integer
`row.is_llc` and of `row.total_buildings` is spelled out. -/
def compute_ownership_score : Option (Int × Option Int) → Rat
  | none => min 0 100
  | some (is_llc, total_buildings) =>
      let llc_part : Rat := if is_llc ≠ 0 then 30 else 0
      let size_part : Rat :=
        match total_buildings with
        | none => 0
        | some n =>
            if n = 0 then 0
            else if n ≥ 100 then 70
            else if n ≥ 50 then 50
            else if n ≥ 20 then 30
            else if n ≥ 10 then 15
            else 0
      min (llc_part + size_part) 100

/-- Embedding of `ScoringService._compute_resolution_score`
(`CITY_AVG_RESOLUTION_DAYS = 30`). -/
def compute_resolution_score : Option Rat → Rat
  | none => 0
  | some d =>
      if d ≤ 30 then 0
      else min ((d - 30) / 10 * 20) 100

/-- Weighted overall score of `_compute_building_score`, lines 327-336:
weights 0.30 / 0.20 / 0.25 / 0.15 / 0.10, capped at 100. -/
def compute_overall_score (v c e o r : Rat) : Rat :=
  min (v * 0.30 + c * 0.20 + e * 0.25 + o * 0.15 + r * 0.10) 100

/-- Citywide percentile of `_compute_percentiles`:
`PERCENT_RANK() OVER (ORDER BY overall_score DESC) * 100` evaluated for a row
with overall score `x` in a table whose overall scores are `scores`.
`PERCENT_RANK` is `(rank - 1) / (rows - 1)` (defined as `0` for a single row),
and with descending order `rank - 1` counts the rows with strictly greater
score. -/
def percent_rank_city (scores : List Rat) (x : Rat) : Rat :=
  if scores.length ≤ 1 then 0
  else (((scores.filter (fun y => x < y)).length : Rat) / ((scores.length : Rat) - 1)) * 100

/-! ### Token-bucket rate limiter, `pipeline/extractors/socrata.py` -/

/-- State of `RateLimiter`: the configured `rate` (an `int`), the current
`tokens` count (a `float`, modelled as `Rat`) and the `last_refill` wall-clock
instant (modelled as `Rat` seconds). -/
structure RateLimiterState where
  rate : Int
  tokens : Rat
  last_refill : Rat
deriving DecidableEq

/-- Embedding of `RateLimiter.__init__`: `self.tokens = rate`. -/
def rate_limiter_init (rate : Int) (now : Rat) : RateLimiterState :=
  { rate := rate, tokens := rate, last_refill := now }

/-- Embedding of `RateLimiter.acquire` run at wall-clock time `now`: refill by
`elapsed * rate` capped at `rate`; then either set the count to `0` after the
sleep (fewer than one token) or consume one token. -/
def rate_limiter_acquire (s : RateLimiterState) (now : Rat) : RateLimiterState :=
  let elapsed := now - s.last_refill
  let tokens1 := min (s.rate : Rat) (s.tokens + elapsed * (s.rate : Rat))
  if tokens1 < 1 then
    { s with tokens := 0, last_refill := now }
  else
    { s with tokens := tokens1 - 1, last_refill := now }

/-! ### Batched upsert, `pipeline/extractors/base.py` -/

/-- Assoc-list update keyed on the first component: replace the value when the
key is present, append otherwise.  This is both the semantics of the Python
dict insertion `seen[key] = record` in `BaseExtractor._upsert_batch` and of a
single-row `INSERT ... ON CONFLICT (pk) DO UPDATE SET <all non-key columns>`
into a table. -/
def upsert_kv {κ υ : Type} [DecidableEq κ] (l : List (κ × υ)) (k : κ) (v : υ) :
    List (κ × υ) :=
  if l.any (fun p => p.1 = k) then l.map (fun p => if p.1 = k then (k, v) else p)
  else l ++ [(k, v)]

/-- Embedding of the deduplication loop of `BaseExtractor._upsert_batch`:
`seen = {}; for record in records: seen[key] = record; list(seen.values())`.
A record is a `(primary-key tuple, non-key columns)` pair. -/
def dedup_last {κ υ : Type} [DecidableEq κ] (records : List (κ × υ)) : List (κ × υ) :=
  records.foldl (fun acc r => upsert_kv acc r.1 r.2) []

/-- Embedding of `BaseExtractor._upsert_batch` applied to a `table`:
deduplicate by primary key keeping the last occurrence, then upsert every
surviving record (`ON CONFLICT DO UPDATE` overwrites all non-key columns). -/
def upsert_batch {κ υ : Type} [DecidableEq κ] (table records : List (κ × υ)) :
    List (κ × υ) :=
  (dedup_last records).foldl (fun t r => upsert_kv t r.1 r.2) table

/-- Natural key of `RegistrationContactsExtractor.get_primary_key_columns`. -/
def registration_contacts_primary_key : List String :=
  ["registration_id", "contact_type", "full_name"]

/-! ### Pagination, `SocrataClient.fetch_all` in `pipeline/extractors/socrata.py` -/

/-- A fetched page terminates the `fetch_all` loop when it is empty or shorter
than the requested page size. -/
def stop_page {ρ : Type} (fetch : Nat → List ρ) (page_size off : Nat) : Prop :=
  fetch off = [] ∨ (fetch off).length < page_size

/-- Fuel-indexed embedding of the `fetch_all` loop: fetch the page at `off`;
stop (yielding nothing more) on an empty page, stop after yielding a short
page, otherwise yield the page, advance the offset by the page size and
continue.  `none` means the loop did not terminate within `fuel` pages. -/
def fetch_all_fuel {ρ : Type} (fetch : Nat → List ρ) (page_size : Nat) :
    Nat → Nat → Option (List ρ)
  | 0, _ => none
  | fuel + 1, off =>
      let records := fetch off
      if records.isEmpty then some []
      else if records.length < page_size then some records
      else
        match fetch_all_fuel fetch page_size fuel (off + page_size) with
        | none => none
        | some rest => some (records ++ rest)

/-! ### Python string helpers for the extractors
(`pipeline/extractors/base.py` and `hpd_registrations.py`)

The raw Socrata records of this pipeline are flat string-valued JSON objects,
modelled as association lists; `record.get(k)` is an `Option String`.  The
regular expressions of the source are fixed patterns; they are embedded as
explicit scanners with Python `re` semantics (ordered alternation,
backtracking, `\b` word boundaries computed on the original text, matches
scanned left to right and never overlapping).  All data this code receives is
ASCII, so `\w` is modelled as ASCII alphanumeric or underscore. -/

/-- Python regex `\w` on the ASCII data of this pipeline. -/
def word_char (c : Char) : Bool := c.isAlphanum || c = '_'

/-- Python `\s` / `str.split()` whitespace. -/
def py_space (c : Char) : Bool :=
  c = ' ' || c = '\t' || c = '\n' || c = '\r' || c = '\x0b' || c = '\x0c'

/-- Wordness of the character on one side of a position; the edge of the
string counts as non-word. -/
def is_word_opt : Option Char → Bool
  | none => false
  | some c => word_char c

/-- Python regex `\b`: the two sides of the position differ in wordness. -/
def at_boundary (a b : Option Char) : Bool := is_word_opt a != is_word_opt b

/-- Digit list to number, most significant first. -/
def digits_to_nat (ds : List Char) : Nat :=
  ds.foldl (fun n c => 10 * n + (c.toNat - '0'.toNat)) 0

/-- Python `int(s)` on the strings this pipeline feeds it: surrounding
whitespace stripped, optional sign, at least one decimal digit (underscore
separators and non-decimal bases do not occur in this data and are not
modelled). -/
def py_int_of_string (s : String) : Option Int :=
  let cs := ((s.toList.dropWhile py_space).reverse.dropWhile py_space).reverse
  match cs with
  | '-' :: ds =>
      if ds ≠ [] ∧ ds.all Char.isDigit then some (-(digits_to_nat ds : Int)) else none
  | '+' :: ds =>
      if ds ≠ [] ∧ ds.all Char.isDigit then some (digits_to_nat ds : Int) else none
  | ds =>
      if ds ≠ [] ∧ ds.all Char.isDigit then some (digits_to_nat ds : Int) else none

/-- Python `int(float(s))` on the strings this pipeline feeds it: optional
sign, decimal digits with an optional decimal point, truncated toward zero
(scientific notation and `inf`/`nan` do not occur in the identifier fields
this feeds and are not modelled). -/
def py_float_int_of_string (s : String) : Option Int :=
  let cs := ((s.toList.dropWhile py_space).reverse.dropWhile py_space).reverse
  let signed : Bool × List Char :=
    match cs with
    | '-' :: t => (true, t)
    | '+' :: t => (false, t)
    | _ => (false, cs)
  let ip := signed.2.takeWhile Char.isDigit
  let rest := signed.2.dropWhile Char.isDigit
  let value : Option Int :=
    match rest with
    | [] => if ip = [] then none else some (digits_to_nat ip : Int)
    | '.' :: fp =>
        if fp.all Char.isDigit ∧ (ip ≠ [] ∨ fp ≠ []) then some (digits_to_nat ip : Int)
        else none
    | _ => none
  value.map (fun v => if signed.1 then -v else v)

/-- Embedding of `BaseExtractor.safe_int`: `None` and the empty string give
`None`, otherwise `int(float(value))`, with `None` on a parse failure. -/
def safe_int : Option String → Option Int
  | none => none
  | some s => if s = "" then none else py_float_int_of_string s

/-- Python `a or b` on two optional strings: `a` unless it is falsy (`None`
or the empty string). -/
def py_or_str (a b : Option String) : Option String :=
  match a with
  | none => b
  | some s => if s = "" then b else some s

/-- Python `f"{n:0Nd}"`: decimal digits left-padded with zeros to width
`width`, the sign of a negative number placed before the zeros. -/
def py_format_int (width : Nat) (n : Int) : String :=
  let body := toString n.natAbs
  if n < 0 then
    "-" ++ String.mk (List.replicate (width - 1 - body.length) '0') ++ body
  else
    String.mk (List.replicate (width - body.length) '0') ++ body

/-- Embedding of `BaseExtractor.make_bbl`: `int()` each component (a missing
component raises a caught `TypeError`), then the fixed-width string
`f"{b}{bl:05d}{l:04d}"`; any failure returns `None`. -/
def make_bbl (borough block lot : Option String) : Option String :=
  match borough.bind py_int_of_string, block.bind py_int_of_string,
      lot.bind py_int_of_string with
  | some b, some bl, some l =>
      some (toString b ++ py_format_int 5 bl ++ py_format_int 4 l)
  | _, _, _ => none

/-- A raw Socrata record: a flat string-to-string mapping. -/
abbrev RawRecord := List (String × String)

/-- Python `record.get(k)` on a raw record. -/
def rget (r : RawRecord) (k : String) : Option String :=
  (r.find? (fun p => p.1 = k)).map (fun p => p.2)

/-! ### Extractor transforms (skip / keep logic and the BBL field)

Each `transform_record` returns a dict of column values or `None` to skip the
record.  The embeddings below keep each transform's gating logic and its
identifier and `bbl` entries exactly as in the source; the remaining entries
of the returned dict are verbatim field copies and date parses that no claim
mentions, and are projected away. -/

/-- Embedding of `HPDViolationsExtractor.transform_record` projected onto
`(violation_id, bbl)`: skip on a falsy `violationid`, build the BBL from
`boroid`/`boro`, `block`, `lot`, and skip when it cannot be built. -/
def hpd_violations_transform (r : RawRecord) : Option (Int × String) :=
  match safe_int (rget r "violationid") with
  | none => none
  | some vid =>
      if vid = 0 then none
      else
        match make_bbl (py_or_str (rget r "boroid") (rget r "boro"))
            (rget r "block") (rget r "lot") with
        | none => none
        | some b => some (vid, b)

/-- Embedding of `HPDRegistrationsExtractor.transform_record` projected onto
`(registration_id, bbl)`: skip on a falsy `registrationid` and skip when the
BBL cannot be built. -/
def hpd_registrations_transform (r : RawRecord) : Option (Int × String) :=
  match safe_int (rget r "registrationid") with
  | none => none
  | some rid =>
      if rid = 0 then none
      else
        match make_bbl (py_or_str (rget r "boroid") (rget r "boro"))
            (rget r "block") (rget r "lot") with
        | none => none
        | some b => some (rid, b)

/-- Embedding of `DOBViolationsExtractor.transform_record` projected onto
`(isn_dob_bis_viol, bbl)`: skip on a falsy identifier; the BBL may be `None`
and the record is kept regardless. -/
def dob_violations_transform (r : RawRecord) : Option (String × Option String) :=
  match py_or_str (rget r "isn_dob_bis_viol") (rget r "isn_dob_bis_extract") with
  | none => none
  | some isn =>
      if isn = "" then none
      else some (isn, make_bbl (rget r "boro") (rget r "block") (rget r "lot"))

/-- Embedding of `EvictionsExtractor.transform_record` projected onto
`(court_index_number, bbl)`: skip on a falsy court index; a falsy `bbl`
field becomes `None` and the record is kept. -/
def evictions_transform (r : RawRecord) : Option (String × Option String) :=
  match py_or_str (rget r "court_index_number") (rget r "courtindexnumber") with
  | none => none
  | some ci =>
      if ci = "" then none
      else
        let bbl : Option String :=
          match rget r "bbl" with
          | none => none
          | some s => if s = "" then none else some s
        some (ci, bbl)

/-- Embedding of `Complaints311Extractor.transform_record` projected onto
`(unique_key, bbl)`: skip on a falsy `unique_key`; a falsy `bbl` field
becomes `None` and the record is kept. -/
def complaints_311_transform (r : RawRecord) : Option (Int × Option String) :=
  match safe_int (rget r "unique_key") with
  | none => none
  | some uk =>
      if uk = 0 then none
      else
        let bbl : Option String :=
          match rget r "bbl" with
          | none => none
          | some s => if s = "" then none else some s
        some (uk, bbl)

/-! ### Name and address normalization,
`RegistrationContactsExtractor` in `pipeline/extractors/hpd_registrations.py` -/

/-- Kept characters of `PUNCT_PATTERN.sub("", s)` with pattern `[^\w\s]`. -/
def strip_punct (s : List Char) : List Char :=
  s.filter (fun c => word_char c || py_space c)

/-- Python `s.split()`: split on whitespace runs, dropping empty pieces.  The
first argument is the remaining input, the second the current word reversed. -/
def split_ws_aux : List Char → List Char → List (List Char)
  | [], acc => if acc = [] then [] else [acc.reverse]
  | c :: rest, acc =>
      if py_space c then
        if acc = [] then split_ws_aux rest []
        else acc.reverse :: split_ws_aux rest []
      else split_ws_aux rest (c :: acc)

/-- Join words with single spaces, as `" ".join(...)`. -/
def join_words : List (List Char) → List Char
  | [] => []
  | [w] => w
  | w :: ws => w ++ ' ' :: join_words ws

/-- Python `" ".join(s.split())`, which also strips the ends. -/
def collapse_ws (s : List Char) : List Char := join_words (split_ws_aux s [])

/-- Literal alternative match at the head of `s` with the trailing `\b` of
the pattern checked against the character following the match. -/
def match_alt (alt : List Char) (s : List Char) : Bool :=
  alt.isPrefixOf s && at_boundary alt.getLast? ((s.drop alt.length).head?)

/-- First alternative (in pattern order) matching at the head of `s`,
replicating Python's ordered alternation. -/
def find_alt (alts : List (List Char)) (s : List Char) : Option (List Char) :=
  alts.find? (fun alt => match_alt alt s)

/-- Scanner for `re.sub(r"\b(ALT1|ALT2|...)\b", "", s)`: at each position with
a word boundary before it, try the alternatives in order and delete the first
that matches with a word boundary after it; continue after the match, with
boundaries still computed on the original characters.  `fuel` bounds the scan
by the input length. -/
def sub_alts_word (alts : List (List Char)) : Nat → Option Char → List Char → List Char
  | 0, _, s => s
  | fuel + 1, prev, s =>
      match s with
      | [] => []
      | c :: rest =>
          match (if at_boundary prev (some c) then find_alt alts (c :: rest) else none) with
          | some alt =>
              sub_alts_word alts fuel alt.getLast? ((c :: rest).drop alt.length)
          | none => c :: sub_alts_word alts fuel (some c) rest

/-- The alternatives of `SUFFIX_PATTERN`, in source order.  The input is
already uppercased when the pattern is applied, so `re.IGNORECASE` matching
coincides with literal uppercase matching. -/
def name_suffix_alternatives : List (List Char) :=
  ["LLC", "L.L.C.", "INC", "INCORPORATED", "CORP", "CORPORATION", "CO", "COMPANY",
   "LP", "L.P.", "LTD", "LIMITED", "PLLC", "P.L.L.C.", "PC", "P.C."].map
    (fun w => w.toList)

/-- Embedding of `RegistrationContactsExtractor._normalize_name`: uppercase,
strip the legal-entity suffixes of `SUFFIX_PATTERN` at word boundaries, strip
punctuation, collapse whitespace (the final `strip()` is subsumed by the
join-of-split). -/
def normalize_name (s : String) : String :=
  if s = "" then ""
  else
    let r1 := s.toList.map Char.toUpper
    let r2 := sub_alts_word name_suffix_alternatives r1.length none r1
    let r3 := strip_punct r2
    String.mk (collapse_ws r3)

/-- Scanner for a single street-type substitution
`re.sub(r"\bWORD\b", "REPL", s)`: replace every boundary-delimited occurrence
of `word` by `repl`, scanning left to right on the original characters. -/
def sub_word (word repl : List Char) : Nat → Option Char → List Char → List Char
  | 0, _, s => s
  | fuel + 1, prev, s =>
      match s with
      | [] => []
      | c :: rest =>
          if at_boundary prev (some c) && match_alt word (c :: rest) then
            repl ++ sub_word word repl fuel word.getLast? ((c :: rest).drop word.length)
          else c :: sub_word word repl fuel (some c) rest

/-- One street-type replacement applied to a character list. -/
def apply_word_sub (word repl : String) (s : List Char) : List Char :=
  sub_word word.toList repl.toList s.length none s

/-- The two-letter ordinal suffixes of `\b(\d+)(ST|ND|RD|TH)\b`, checked with
the pattern's trailing `\b` against what follows. -/
def check_ordinal_suffix (s : List Char) : Option (Char × List Char) :=
  match s with
  | a :: b :: rest =>
      if ((a = 'S' ∧ b = 'T') ∨ (a = 'N' ∧ b = 'D') ∨ (a = 'R' ∧ b = 'D') ∨
          (a = 'T' ∧ b = 'H')) ∧ at_boundary (some b) rest.head? = true then
        some (b, rest)
      else none
  | _ => none

/-- Scanner for `re.sub(r"\b(\d+)(ST|ND|RD|TH)\b", r"\1", s)`: at a word
boundary before a digit, consume the maximal digit run (no shorter run can be
followed by a letter suffix), require an ordinal suffix and a trailing
boundary, and keep only the digits. -/
def sub_ordinal : Nat → Option Char → List Char → List Char
  | 0, _, s => s
  | fuel + 1, prev, s =>
      match s with
      | [] => []
      | c :: rest =>
          if at_boundary prev (some c) && c.isDigit then
            match check_ordinal_suffix ((c :: rest).dropWhile Char.isDigit) with
            | some q =>
                (c :: rest).takeWhile Char.isDigit ++ sub_ordinal fuel (some q.1) q.2
            | none => c :: sub_ordinal fuel (some c) rest
          else c :: sub_ordinal fuel (some c) rest

/-- Characters matched by `[\w-]`. -/
def word_dash (c : Char) : Bool := word_char c || c = '-'

/-- Backtracking for the greedy `[\w-]+\b` tail: try consuming `j + 1`
characters of the maximal run from longest to shortest until the position
after the consumed part is a word boundary; return the last consumed
character and the remaining input. -/
def find_break_aux (run after : List Char) : Nat → Option (Char × List Char)
  | 0 => none
  | j + 1 =>
      match run.get? j with
      | none => find_break_aux run after j
      | some lc =>
          let nextC : Option Char := if j + 1 < run.length then run.get? (j + 1) else after.head?
          if at_boundary (some lc) nextC then some (lc, run.drop (j + 1) ++ after)
          else find_break_aux run after j

/-- Tail of the apartment pattern after its keyword: `\s*[\w-]+\b` with the
greedy star and plus backtracking (a shorter `\s*` cannot help because
whitespace is disjoint from `[\w-]`). -/
def try_apt_tail (s : List Char) : Option (Char × List Char) :=
  let s1 := s.dropWhile py_space
  let run := s1.takeWhile word_dash
  let after := s1.dropWhile word_dash
  if run = [] then none else find_break_aux run after run.length

/-- The keyword alternatives of `\b(APT|STE|UNIT|FL|#)\s*[\w-]+\b`, in
source order. -/
def apt_alternatives : List (List Char) :=
  ["APT", "STE", "UNIT", "FL", "#"].map (fun w => w.toList)

/-- Match of the full apartment pattern at the head of `s`: a word boundary
before the keyword, the keyword literally, then its tail. -/
def try_apt_at (prev : Option Char) (s : List Char) : Option (Char × List Char) :=
  apt_alternatives.findSome? (fun kw =>
    if kw.isPrefixOf s && at_boundary prev s.head? then try_apt_tail (s.drop kw.length)
    else none)

/-- Scanner for `re.sub(r"\b(APT|STE|UNIT|FL|#)\s*[\w-]+\b", "", s)`. -/
def sub_apt : Nat → Option Char → List Char → List Char
  | 0, _, s => s
  | fuel + 1, prev, s =>
      match s with
      | [] => []
      | c :: rest =>
          match try_apt_at prev (c :: rest) with
          | some q => sub_apt fuel (some q.1) q.2
          | none => c :: sub_apt fuel (some c) rest

/-- Embedding of `RegistrationContactsExtractor._normalize_address`:
uppercase; the fixed street-type replacement table in source order; strip
ordinal suffixes from numbers; remove apartment/suite/unit designators with
their following token; strip punctuation; collapse whitespace. -/
def normalize_address (s : String) : String :=
  if s = "" then ""
  else
    let r0 := s.toList.map Char.toUpper
    let r1 := apply_word_sub "STREET" "ST" r0
    let r2 := apply_word_sub "AVENUE" "AVE" r1
    let r3 := apply_word_sub "BOULEVARD" "BLVD" r2
    let r4 := apply_word_sub "ROAD" "RD" r3
    let r5 := apply_word_sub "DRIVE" "DR" r4
    let r6 := apply_word_sub "LANE" "LN" r5
    let r7 := apply_word_sub "PLACE" "PL" r6
    let r8 := apply_word_sub "COURT" "CT" r7
    let r9 := apply_word_sub "APARTMENT" "APT" r8
    let r10 := apply_word_sub "SUITE" "STE" r9
    let r11 := apply_word_sub "FLOOR" "FL" r10
    let r12 := sub_ordinal r11.length none r11
    let r13 := sub_apt r12.length none r12
    let r14 := strip_punct r13
    String.mk (collapse_ws r14)

/-- An HPD violation raw record with a present identifier whose BBL cannot be
resolved (no `block`/`lot` fields). -/
def hpd_raw_no_bbl : RawRecord := [("violationid", "123"), ("boroid", "1")]


/-! ### Database model for the scoring recompute, `app/services/scoring.py`

One row structure per table read by the scoring engine, carrying exactly the
columns the scoring queries touch. -/

/-- Rounding to two decimals.  Models both `ROUND(x::numeric, 2)` of the SQL
path and Python `round(x, 2)` of the per-building path over the exact
rational numeric model. -/
def round2 (x : Rat) : Rat := ((round (x * 100) : Int) : Rat) / 100

/-- Modelled from the spec: the `Building` model file (`app/models/building.py`)
is not among the provided sources.  Per §3, a building is keyed by its unique
BBL and carries unit counts that may be missing; the scoring engine reads
exactly `bbl` and `total_units`. -/
structure BuildingRow where
  bbl : String
  total_units : Option Int
deriving DecidableEq

/-- An `hpd_violations` row as read by scoring (`app/models/hpd.py`). -/
structure ViolationRow where
  violation_id : Int
  bbl : Option String
  violation_class : Option String
  current_status : Option String
deriving DecidableEq

/-- A `complaints_311` row as read by scoring (`app/models/complaints.py`);
`days_to_resolve` is an integer day count, nullable. -/
structure ComplaintRow where
  unique_key : Int
  bbl : Option String
  days_to_resolve : Option Int
deriving DecidableEq

/-- Modelled from the spec: the `Eviction` model file
(`app/models/eviction.py`) is not among the provided sources.  Per §3 an
eviction is a fact record carrying a nullable BBL; the scoring engine reads
`id` and `bbl`. -/
structure EvictionRow where
  id : Int
  bbl : Option String
deriving DecidableEq

/-- A `registration_contacts` row as read by scoring (`app/models/hpd.py`). -/
structure ContactRow where
  registration_id : Int
  contact_type : Option String
  owner_portfolio_id : Option Int
deriving DecidableEq

/-- An `hpd_registrations` row as read by scoring (`app/models/hpd.py`);
`bbl` is `NOT NULL`. -/
structure RegistrationRow where
  registration_id : Int
  bbl : String
deriving DecidableEq

/-- An `owner_portfolios` row as read by scoring (`app/models/owner.py`);
`is_llc` is an integer flag, `total_buildings` the stored aggregate. -/
structure PortfolioRow where
  id : Int
  is_llc : Int
  total_buildings : Option Int
deriving DecidableEq

/-- The tables read by the scoring engine. -/
structure ScoringDB where
  buildings : List BuildingRow
  hpd_violations : List ViolationRow
  complaints_311 : List ComplaintRow
  evictions : List EvictionRow
  registration_contacts : List ContactRow
  hpd_registrations : List RegistrationRow
  owner_portfolios : List PortfolioRow

/-- Violations of one building: the `violation_counts` CTE groups
`WHERE bbl IS NOT NULL` rows by `bbl` and is joined on `b.bbl = v.bbl`, and
the per-building queries filter `HPDViolation.bbl == bbl`; both select the
rows with `v.bbl = some bbl`. -/
def violation_rows (db : ScoringDB) (bbl : String) : List ViolationRow :=
  db.hpd_violations.filter (fun v => v.bbl = some bbl)

/-- Count of a building's violations in one class, as both
`SUM(CASE WHEN violation_class = cls THEN 1 ELSE 0 END)` and the Python
per-class `GROUP BY` count. -/
def count_class (rows : List ViolationRow) (cls : String) : Nat :=
  (rows.filter (fun v => v.violation_class = some cls)).length

/-- Count of open violations: `current_status IN ('OPEN', 'NOV SENT')`. -/
def count_open (rows : List ViolationRow) : Nat :=
  (rows.filter (fun v =>
    v.current_status = some "OPEN" ∨ v.current_status = some "NOV SENT")).length

/-- Complaints of one building. -/
def complaint_rows (db : ScoringDB) (bbl : String) : List ComplaintRow :=
  db.complaints_311.filter (fun c => c.bbl = some bbl)

/-- Evictions of one building. -/
def eviction_rows (db : ScoringDB) (bbl : String) : List EvictionRow :=
  db.evictions.filter (fun e => e.bbl = some bbl)

/-- SQL `AVG` over a list of integer values: `NULL` on an empty group. -/
def list_avg (l : List Int) : Option Rat :=
  if l.isEmpty then none else some ((l.sum : Rat) / (l.length : Rat))

/-- `AVG(days_to_resolve)` of the `complaint_counts` CTE: nulls are ignored
by `AVG`, zero and negative day counts are included. -/
def sql_avg_resolution (db : ScoringDB) (bbl : String) : Option Rat :=
  list_avg ((complaint_rows db bbl).filterMap (fun c => c.days_to_resolve))

/-- Average of `_get_avg_resolution_time`: its query additionally requires
`days_to_resolve IS NOT NULL AND days_to_resolve > 0`. -/
def py_avg_resolution (db : ScoringDB) (bbl : String) : Option Rat :=
  list_avg ((complaint_rows db bbl).filterMap (fun c =>
    match c.days_to_resolve with
    | none => none
    | some d => if 0 < d then some d else none))

/-- The owner join common to both paths:
`registration_contacts rc JOIN hpd_registrations hr ON rc.registration_id =
hr.registration_id JOIN owner_portfolios op ON rc.owner_portfolio_id = op.id`
restricted to `rc.contact_type = 'Owner'` and to the building's BBL, in
nested-loop order. -/
def owner_join (db : ScoringDB) (bbl : String) :
    List (ContactRow × RegistrationRow × PortfolioRow) :=
  (db.registration_contacts.filter (fun rc => rc.contact_type = some "Owner")).flatMap
    (fun rc =>
      (db.hpd_registrations.filter
          (fun hr => hr.registration_id = rc.registration_id ∧ hr.bbl = bbl)).flatMap
        (fun hr =>
          (db.owner_portfolios.filter (fun op => rc.owner_portfolio_id = some op.id)).map
            (fun op => (rc, hr, op))))

/-- The `portfolio_buildings` CTE: `COUNT(DISTINCT hr.bbl)` over contacts of
any type assigned to portfolio `pid`, joined to their registrations. -/
def portfolio_building_count (db : ScoringDB) (pid : Int) : Int :=
  (((db.registration_contacts.filter (fun rc => rc.owner_portfolio_id = some pid)).flatMap
      (fun rc => (db.hpd_registrations.filter
          (fun hr => hr.registration_id = rc.registration_id)).map
        (fun hr => hr.bbl))).dedup).length

/-- Whether `portfolio_buildings` has a group for portfolio `pid` (the CTE
inner-joins contacts with non-null portfolio ids to registrations). -/
def portfolio_has_row (db : ScoringDB) (pid : Int) : Bool :=
  db.registration_contacts.any (fun rc =>
    decide (rc.owner_portfolio_id = some pid) &&
      db.hpd_registrations.any (fun hr =>
        decide (hr.registration_id = rc.registration_id)))

/-- The `ownership_info` CTE joined onto one building in the `scored` CTE:
with no join row the `LEFT JOIN` plus `COALESCE` give `is_llc = 0` and
`total_buildings = 0`; otherwise the grouped `MAX(op.is_llc)` and
`MAX(pb.total_buildings)` (the inner join to `portfolio_buildings` keeps
only portfolios with a group there). -/
def sql_ownership_inputs (db : ScoringDB) (bbl : String) : Int × Int :=
  match (owner_join db bbl).filter (fun t => portfolio_has_row db t.2.2.id) with
  | [] => (0, 0)
  | t :: ts =>
      (ts.foldl (fun m u => max m u.2.2.is_llc) t.2.2.is_llc,
       ts.foldl (fun m u => max m (portfolio_building_count db u.2.2.id))
         (portfolio_building_count db t.2.2.id))

/-- The `ownership_score` expression of the `computed` CTE:
`CASE WHEN is_llc = 1 THEN 30 ELSE 0 END` plus the portfolio-size `CASE`,
`LEAST`-capped at 100. -/
def sql_ownership_score (db : ScoringDB) (bbl : String) : Rat :=
  let p := sql_ownership_inputs db bbl
  min ((if p.1 = 1 then (30 : Rat) else 0) +
       (if p.2 ≥ 100 then (70 : Rat)
        else if p.2 ≥ 50 then 50
        else if p.2 ≥ 20 then 30
        else if p.2 ≥ 10 then 15
        else 0)) 100

/-- The `LIMIT 1` row of `_compute_ownership_score`: the first row of the
owner join in nested-loop order (the query has no `ORDER BY`). -/
def py_owner_row (db : ScoringDB) (bbl : String) : Option (Int × Option Int) :=
  (owner_join db bbl).head?.map (fun t => (t.2.2.is_llc, t.2.2.total_buildings))

/-- A `building_scores` row, excluding the percentile columns (filled later
by `_compute_percentiles`) and timestamps. -/
structure ScoreRow where
  bbl : String
  violation_score : Rat
  complaints_score : Rat
  eviction_score : Rat
  ownership_score : Rat
  resolution_score : Rat
  overall_score : Rat
  grade : String
  total_violations : Nat
  class_c_violations : Nat
  class_b_violations : Nat
  class_a_violations : Nat
  open_violations : Nat
  total_complaints : Nat
  total_evictions : Nat
  avg_resolution_days : Option Rat
  violations_per_unit : Rat
  complaints_per_unit : Rat
  evictions_per_unit : Rat
deriving DecidableEq

/-- The `building_scores` row produced for building `b` by the set-based SQL
of `compute_all_scores` (CTEs `building_base` through `final` and the
`INSERT` select list). -/
def sql_score_row (db : ScoringDB) (b : BuildingRow) : ScoreRow :=
  let units := units_sql b.total_units
  let vrows := violation_rows db b.bbl
  let class_c := count_class vrows "C"
  let class_b := count_class vrows "B"
  let class_a := count_class vrows "A"
  let open_v := count_open vrows
  let total_v := vrows.length
  let total_c := (complaint_rows db b.bbl).length
  let total_e := (eviction_rows db b.bbl).length
  let avg := sql_avg_resolution db b.bbl
  let violation_score :=
    min ((((class_c : Rat) * 10 + (class_b : Rat) * 5 + (class_a : Rat)) / (units : Rat)) * 10) 100
  let complaints_score := min (((total_c : Rat) / (units : Rat)) * 20) 100
  let eviction_score := min (((total_e : Rat) / (units : Rat)) * 50) 100
  let ownership_score := sql_ownership_score db b.bbl
  let resolution_score : Rat :=
    match avg with
    | none => 0
    | some d => if d ≤ 30 then 0 else min ((d - 30) * 2) 100
  let overall := min (violation_score * 0.30 + complaints_score * 0.20 +
      eviction_score * 0.25 + ownership_score * 0.15 + resolution_score * 0.10) 100
  { bbl := b.bbl
    violation_score := round2 violation_score
    complaints_score := round2 complaints_score
    eviction_score := round2 eviction_score
    ownership_score := round2 ownership_score
    resolution_score := round2 resolution_score
    overall_score := round2 overall
    grade := building_grade_sql overall
    total_violations := total_v
    class_c_violations := class_c
    class_b_violations := class_b
    class_a_violations := class_a
    open_violations := open_v
    total_complaints := total_c
    total_evictions := total_e
    avg_resolution_days := avg
    violations_per_unit := round2 ((total_v : Rat) / (units : Rat))
    complaints_per_unit := round2 ((total_c : Rat) / (units : Rat))
    evictions_per_unit := round2 ((total_e : Rat) / (units : Rat)) }

/-- The score dict produced for building `b` by `_compute_building_score`
(total violations are the sum of the A/B/C class counts of
`_get_violation_counts`). -/
def py_score_row (db : ScoringDB) (b : BuildingRow) : ScoreRow :=
  let units := units_py b.total_units
  let vrows := violation_rows db b.bbl
  let class_c := count_class vrows "C"
  let class_b := count_class vrows "B"
  let class_a := count_class vrows "A"
  let total_v := class_a + class_b + class_c
  let open_v := count_open vrows
  let total_c := (complaint_rows db b.bbl).length
  let total_e := (eviction_rows db b.bbl).length
  let avg := py_avg_resolution db b.bbl
  let violation_score := compute_violation_score (class_c : Int) (class_b : Int) (class_a : Int) units
  let complaints_score := compute_complaints_score (total_c : Int) units
  let eviction_score := compute_eviction_score (total_e : Int) units
  let ownership_score := compute_ownership_score (py_owner_row db b.bbl)
  let resolution_score := compute_resolution_score avg
  let overall := compute_overall_score violation_score complaints_score eviction_score
      ownership_score resolution_score
  { bbl := b.bbl
    violation_score := round2 violation_score
    complaints_score := round2 complaints_score
    eviction_score := round2 eviction_score
    ownership_score := round2 ownership_score
    resolution_score := round2 resolution_score
    overall_score := round2 overall
    grade := score_to_grade overall
    total_violations := total_v
    class_c_violations := class_c
    class_b_violations := class_b
    class_a_violations := class_a
    open_violations := open_v
    total_complaints := total_c
    total_evictions := total_e
    avg_resolution_days := avg
    violations_per_unit := round2 ((total_v : Rat) / (units : Rat))
    complaints_per_unit := round2 ((total_c : Rat) / (units : Rat))
    evictions_per_unit := round2 ((total_e : Rat) / (units : Rat)) }

/-- A one-building database whose single complaint was resolved the day it
was filed (`days_to_resolve = 0`). -/
def c3_building : BuildingRow := { bbl := "1000010001", total_units := some 1 }

/-- The database state of the C3 counterexample. -/
def c3_db : ScoringDB :=
  { buildings := [c3_building]
    hpd_violations := []
    complaints_311 := [{ unique_key := 1, bbl := some "1000010001", days_to_resolve := some 0 }]
    evictions := []
    registration_contacts := []
    hpd_registrations := []
    owner_portfolios := [] }

/-- An isolated one-building database on which both scoring paths trivially
agree. -/
def c3_witness_db : ScoringDB :=
  { buildings := [c3_building]
    hpd_violations := []
    complaints_311 := []
    evictions := []
    registration_contacts := []
    hpd_registrations := []
    owner_portfolios := [] }


lemma filter_length_mono {α : Type} (l : List α) (p q : α → Bool)
    (h : ∀ a, p a = true → q a = true) :
    (l.filter p).length ≤ (l.filter q).length := by
  induction l with
  | nil => simp
  | cons a t ih =>
      by_cases hp : p a = true
      · simp [List.filter, hp, h a hp]
        omega
      · have hp' : p a = false := by
          cases hpa : p a
          · rfl
          · exact absurd hpa hp
        by_cases hq : q a = true
        · simp [List.filter, hp', hq]
          omega
        · have hq' : q a = false := by
            cases hqa : q a
            · rfl
            · exact absurd hqa hq
          simpa [List.filter, hp', hq'] using ih

/-- C1: counterexample.  In a table holding overall scores `10` and `20`, the
building with the strictly higher overall score `20` gets citywide percentile
`0`, strictly below the percentile `100` of the building scoring `10`, because
`PERCENT_RANK` is computed over `ORDER BY overall_score DESC`.  This refutes
the claim that a strictly higher overall score implies a percentile that is
greater than or equal to the other building's. -/
theorem C1_percentile_counterexample :
    (10 : Rat) ∈ [(10 : Rat), 20] ∧ (20 : Rat) ∈ [(10 : Rat), 20] ∧
    (10 : Rat) < 20 ∧
    ¬ (percent_rank_city [10, 20] 20 ≥ percent_rank_city [10, 20] 10) := by
  refine ⟨by simp, by simp, by norm_num, ?_⟩
  simp only [percent_rank_city]
  norm_num [List.filter]

/-- C1 (amended): for all pairs of scored buildings, a strictly higher overall
score implies a citywide percentile less than or equal to the other's, and
buildings with equal overall score share the same percentile. -/
theorem C1_percentile_antitone :
    ∀ (scores : List Rat) (x y : Rat), x ∈ scores → y ∈ scores →
      (y < x → percent_rank_city scores x ≤ percent_rank_city scores y) ∧
      (y = x → percent_rank_city scores x = percent_rank_city scores y) := by
  intro scores x y _ _
  constructor
  · intro hlt
    unfold percent_rank_city
    by_cases hlen : scores.length ≤ 1
    · rw [if_pos hlen, if_pos hlen]
    · rw [if_neg hlen, if_neg hlen]
      have h2 : 2 ≤ scores.length := by omega
      have hD : (0 : Rat) < (scores.length : Rat) - 1 := by
        have : (2 : Rat) ≤ (scores.length : Rat) := by exact_mod_cast h2
        linarith
      have hAB : (((scores.filter (fun z => x < z)).length : Rat))
          ≤ ((scores.filter (fun z => y < z)).length : Rat) := by
        have := filter_length_mono scores
            (fun z => decide (x < z)) (fun z => decide (y < z))
            (by
              intro a ha
              have hxa : x < a := of_decide_eq_true ha
              exact decide_eq_true (lt_trans hlt hxa))
        exact_mod_cast this
      rw [div_eq_mul_inv, div_eq_mul_inv]
      have hinv : (0 : Rat) ≤ ((scores.length : Rat) - 1)⁻¹ := inv_nonneg.2 hD.le
      refine mul_le_mul_of_nonneg_right ?_ (by norm_num)
      exact mul_le_mul_of_nonneg_right hAB hinv
  · intro heq
    rw [heq]

/-- C1 (amended) witness at a concrete table. -/
theorem C1_percentile_antitone_witness :
    percent_rank_city [(10 : Rat), 20] 20 ≤ percent_rank_city [(10 : Rat), 20] 10 :=
  (C1_percentile_antitone [10, 20] 20 10 (by simp) (by simp)).1 (by norm_num)

/-- C4: the component-score functions of the scoring service compute exactly
the claimed formulas: `violation = min((10*C + 5*B + 1*A)/units * 10, 100)`,
`complaints = min(count/units * 20, 100)`, `evictions = min(count/units * 50,
100)`, `ownership = min(llc-part + portfolio-size bonus, 100)`,
`resolution = 0` when the average is missing or at most 30 days and otherwise
`min((avg - 30)/10 * 20, 100)`, and
`overall = min(0.30*v + 0.20*c + 0.25*e + 0.15*o + 0.10*r, 100)`;
the units divisor is `max(total_units, 1)` with missing counts read as 1. -/
theorem C4_component_formulas :
    (∀ cC cB cA u : Int,
        compute_violation_score cC cB cA u
          = min ((((10 * cC + 5 * cB + 1 * cA : Int) : Rat) / (u : Rat)) * 10) 100) ∧
    (∀ n u : Int, compute_complaints_score n u = min (((n : Rat) / (u : Rat)) * 20) 100) ∧
    (∀ n u : Int, compute_eviction_score n u = min (((n : Rat) / (u : Rat)) * 50) 100) ∧
    (∀ (is_llc tb : Int),
        compute_ownership_score (some (is_llc, some tb))
          = min ((if is_llc ≠ 0 then (30 : Rat) else 0) +
                 (if tb ≥ 100 then (70 : Rat) else if tb ≥ 50 then 50
                  else if tb ≥ 20 then 30 else if tb ≥ 10 then 15 else 0)) 100) ∧
    (compute_resolution_score none = 0) ∧
    (∀ d : Rat, d ≤ 30 → compute_resolution_score (some d) = 0) ∧
    (∀ d : Rat, 30 < d → compute_resolution_score (some d) = min ((d - 30) / 10 * 20) 100) ∧
    (∀ v c e o r : Rat,
        compute_overall_score v c e o r
          = min (0.30 * v + 0.20 * c + 0.25 * e + 0.15 * o + 0.10 * r) 100) ∧
    (∀ tu : Option Int, units_py tu = max (tu.getD 1) 1) := by
  refine ⟨?_, ?_, ?_, ?_, rfl, ?_, ?_, ?_, ?_⟩
  · intro cC cB cA u
    unfold compute_violation_score
    push_cast
    ring_nf
  · intro n u; rfl
  · intro n u; rfl
  · intro is_llc tb
    rcases eq_or_ne tb 0 with h0 | h0
    · subst h0
      simp [compute_ownership_score]
    · simp only [compute_ownership_score, if_neg h0]
  · intro d hd
    simp only [compute_resolution_score, if_pos hd]
  · intro d hd
    simp only [compute_resolution_score, if_neg (not_le.2 hd)]
  · intro v c e o r
    unfold compute_overall_score
    ring_nf
  · intro tu
    cases tu with
    | none => rfl
    | some n =>
        rcases eq_or_ne n 0 with h0 | h0
        · subst h0; rfl
        · simp [units_py, h0]

/-- C4 witness: the resolution-score branches applied at concrete averages. -/
theorem C4_component_formulas_witness :
    compute_resolution_score (some 30) = 0 ∧
    compute_resolution_score (some 50) = min ((50 - 30) / 10 * 20) 100 :=
  ⟨C4_component_formulas.2.2.2.2.2.1 30 (by norm_num),
   C4_component_formulas.2.2.2.2.2.2.1 50 (by norm_num)⟩

/-- C5: the grade function maps scores by half-open intervals
`[0,20) -> A`, `[20,40) -> B`, `[40,60) -> C`, `[60,80) -> D`,
`[80,100] -> F`; in particular `20.0` maps to `B` and `80.0` to `F`; and the
SQL grade expressions for building scores and portfolio scores agree with it
everywhere. -/
theorem C5_grade_mapping :
    (∀ s : Rat, 0 ≤ s → s < 20 → score_to_grade s = "A") ∧
    (∀ s : Rat, 20 ≤ s → s < 40 → score_to_grade s = "B") ∧
    (∀ s : Rat, 40 ≤ s → s < 60 → score_to_grade s = "C") ∧
    (∀ s : Rat, 60 ≤ s → s < 80 → score_to_grade s = "D") ∧
    (∀ s : Rat, 80 ≤ s → s ≤ 100 → score_to_grade s = "F") ∧
    score_to_grade 20 = "B" ∧ score_to_grade 80 = "F" ∧
    (∀ s : Rat, building_grade_sql s = score_to_grade s) ∧
    (∀ s : Rat, portfolio_grade_sql s = score_to_grade s) := by
  refine ⟨?_, ?_, ?_, ?_, ?_, by norm_num [score_to_grade],
    by norm_num [score_to_grade], fun s => rfl, fun s => rfl⟩
  · intro s _ h2
    unfold score_to_grade
    rw [if_pos h2]
  · intro s h1 h2
    unfold score_to_grade
    rw [if_neg (by linarith), if_pos h2]
  · intro s h1 h2
    unfold score_to_grade
    rw [if_neg (by linarith), if_neg (by linarith), if_pos h2]
  · intro s h1 h2
    unfold score_to_grade
    rw [if_neg (by linarith), if_neg (by linarith), if_neg (by linarith), if_pos h2]
  · intro s h1 _
    unfold score_to_grade
    rw [if_neg (by linarith), if_neg (by linarith), if_neg (by linarith),
      if_neg (by linarith)]

/-- C5 witness: the half-open boundaries at concrete scores. -/
theorem C5_grade_mapping_witness :
    score_to_grade 20 = "B" ∧ score_to_grade 80 = "F" :=
  ⟨C5_grade_mapping.2.1 20 (by norm_num) (by norm_num),
   C5_grade_mapping.2.2.2.2.1 80 (by norm_num) (by norm_num)⟩

/-- C7: both units divisors of the scoring engine (the Python per-building one
and the SQL set-based one) equal `max(total_units, 1)` with a missing count
read as `1`, hence are at least `1` for every input, including `NULL` and `0`
unit counts, so every per-unit division is well-defined. -/
theorem C7_units_divisor :
    ∀ tu : Option Int,
      units_py tu = max (tu.getD 1) 1 ∧
      units_sql tu = max (tu.getD 1) 1 ∧
      1 ≤ units_py tu ∧ 1 ≤ units_sql tu ∧
      units_py none = 1 ∧ units_py (some 0) = 1 ∧ units_sql (some 0) = 1 := by
  intro tu
  have hpy : units_py tu = max (tu.getD 1) 1 := by
    cases tu with
    | none => rfl
    | some n =>
        rcases eq_or_ne n 0 with h0 | h0
        · subst h0; rfl
        · simp [units_py, h0]
  refine ⟨hpy, rfl, ?_, ?_, rfl, rfl, rfl⟩
  · rw [hpy]; exact le_max_right _ _
  · exact le_max_right _ _

/-- C10: the token bucket keeps `0 <= tokens <= rate`: the count equals the
configured rate at construction; each `acquire` caps the refilled count at the
rate, subtracts one only when at least one token is available and sets the
count to zero after waiting otherwise, so the count stays non-negative. -/
theorem C10_rate_limiter_invariant :
    (∀ (r : Int) (t0 : Rat),
        (rate_limiter_init r t0).tokens = (r : Rat) ∧ (rate_limiter_init r t0).rate = r) ∧
    (∀ (s : RateLimiterState) (now : Rat), 0 ≤ (s.rate : Rat) →
        0 ≤ (rate_limiter_acquire s now).tokens ∧
        (rate_limiter_acquire s now).tokens ≤ (s.rate : Rat) ∧
        (rate_limiter_acquire s now).rate = s.rate) ∧
    (∀ (s : RateLimiterState) (now : Rat),
        (1 ≤ min (s.rate : Rat) (s.tokens + (now - s.last_refill) * (s.rate : Rat)) →
          (rate_limiter_acquire s now).tokens
            = min (s.rate : Rat) (s.tokens + (now - s.last_refill) * (s.rate : Rat)) - 1) ∧
        (min (s.rate : Rat) (s.tokens + (now - s.last_refill) * (s.rate : Rat)) < 1 →
          (rate_limiter_acquire s now).tokens = 0)) := by
  refine ⟨fun r t0 => ⟨rfl, rfl⟩, ?_, ?_⟩
  · intro s now hr
    unfold rate_limiter_acquire
    by_cases h : min (s.rate : Rat) (s.tokens + (now - s.last_refill) * (s.rate : Rat)) < 1
    · rw [if_pos h]
      exact ⟨le_refl 0, hr, rfl⟩
    · rw [if_neg h]
      have h1 : (1 : Rat) ≤ min (s.rate : Rat)
          (s.tokens + (now - s.last_refill) * (s.rate : Rat)) := not_lt.1 h
      have hle : min (s.rate : Rat) (s.tokens + (now - s.last_refill) * (s.rate : Rat))
          ≤ (s.rate : Rat) := min_le_left _ _
      refine ⟨?_, ?_, rfl⟩ <;> dsimp only <;> linarith
  · intro s now
    constructor
    · intro h1
      unfold rate_limiter_acquire
      rw [if_neg (not_lt.2 h1)]
    · intro h1
      unfold rate_limiter_acquire
      rw [if_pos h1]

/-- C10 witness at a concrete limiter state. -/
theorem C10_rate_limiter_invariant_witness :
    0 ≤ (rate_limiter_acquire (rate_limiter_init 2 0) 0).tokens ∧
    (rate_limiter_acquire (rate_limiter_init 2 0) 0).tokens
      ≤ ((rate_limiter_init 2 0).rate : Rat) :=
  ⟨(C10_rate_limiter_invariant.2.1 (rate_limiter_init 2 0) 0
      (by norm_num [rate_limiter_init])).1,
   (C10_rate_limiter_invariant.2.1 (rate_limiter_init 2 0) 0
      (by norm_num [rate_limiter_init])).2.1⟩

section UpsertLemmas

variable {κ υ : Type} [DecidableEq κ]

lemma map_fst_keyed_update (l : List (κ × υ)) (k : κ) (v : υ) :
    (l.map (fun p => if p.1 = k then (k, v) else p)).map Prod.fst
      = l.map Prod.fst := by
  induction l with
  | nil => rfl
  | cons p t ih =>
      by_cases h : p.1 = k
      · simp only [List.map_cons, ih, if_pos h]
        rw [← h]
      · simp only [List.map_cons, ih, if_neg h]

lemma nodup_keys_upsert_kv (l : List (κ × υ)) (k : κ) (v : υ)
    (h : (l.map Prod.fst).Nodup) :
    ((upsert_kv l k v).map Prod.fst).Nodup := by
  unfold upsert_kv
  split
  · rw [map_fst_keyed_update]
    exact h
  · rename_i ha
    rw [List.map_append]
    refine List.Nodup.append h (List.nodup_singleton k) ?_
    simp only [List.map_cons, List.map_nil, List.disjoint_singleton]
    intro hmem
    rcases List.mem_map.1 hmem with ⟨p, hp, hpk⟩
    exact ha (List.any_eq_true.2 ⟨p, hp, decide_eq_true hpk⟩)

lemma filter_key_len_le_one (l : List (κ × υ)) (k : κ)
    (h : (l.map Prod.fst).Nodup) :
    (l.filter (fun p => p.1 = k)).length ≤ 1 := by
  induction l with
  | nil => simp
  | cons p t ih =>
      rw [List.map_cons, List.nodup_cons] at h
      by_cases hp : p.1 = k
      · have ht : t.filter (fun p => p.1 = k) = [] := by
          rw [List.filter_eq_nil_iff]
          intro q hq hqk
          exact h.1 (hp ▸ (of_decide_eq_true hqk) ▸ List.mem_map_of_mem Prod.fst hq)
        simp [List.filter_cons, hp, ht]
      · simpa [List.filter_cons, hp] using ih h.2

lemma filter_keyed_update_ne (l : List (κ × υ)) (k' : κ) (v : υ) (k : κ)
    (hne : k' ≠ k) :
    (l.map (fun p => if p.1 = k' then (k', v) else p)).filter (fun p => p.1 = k)
      = l.filter (fun p => p.1 = k) := by
  induction l with
  | nil => rfl
  | cons p t ih =>
      by_cases hp : p.1 = k'
      · have hpk : ¬ p.1 = k := fun hc => hne (hp ▸ hc)
        simp only [List.map_cons, if_pos hp, List.filter_cons]
        rw [ih]
        simp [hne, hpk]
      · simp only [List.map_cons, if_neg hp, List.filter_cons]
        rw [ih]

lemma filter_keyed_update_eq (l : List (κ × υ)) (k : κ) (v : υ) :
    (l.map (fun p => if p.1 = k then (k, v) else p)).filter (fun p => p.1 = k)
      = (l.filter (fun p => p.1 = k)).map (fun _ => (k, v)) := by
  induction l with
  | nil => rfl
  | cons p t ih =>
      by_cases hp : p.1 = k
      · simp only [List.map_cons, if_pos hp, List.filter_cons]
        rw [ih]
        simp [hp]
      · simp only [List.map_cons, if_neg hp, List.filter_cons]
        rw [ih]
        simp [hp]

lemma filter_upsert_kv_ne (l : List (κ × υ)) (k' : κ) (v : υ) (k : κ) (hne : k' ≠ k) :
    (upsert_kv l k' v).filter (fun p => p.1 = k) = l.filter (fun p => p.1 = k) := by
  unfold upsert_kv
  split
  · exact filter_keyed_update_ne l k' v k hne
  · rw [List.filter_append]
    simp [hne]

lemma filter_upsert_kv_eq (l : List (κ × υ)) (r : κ × υ)
    (h : (l.map Prod.fst).Nodup) :
    (upsert_kv l r.1 r.2).filter (fun p => p.1 = r.1) = [r] := by
  unfold upsert_kv
  split
  · rename_i ha
    rcases List.any_eq_true.1 ha with ⟨q, hq, hqk⟩
    have hqk' : q.1 = r.1 := of_decide_eq_true hqk
    have hmemf : q ∈ l.filter (fun p => p.1 = r.1) :=
      List.mem_filter.2 ⟨hq, decide_eq_true hqk'⟩
    have hlen1 : (l.filter (fun p => p.1 = r.1)).length = 1 := by
      have h1 := filter_key_len_le_one l r.1 h
      have h2 : 0 < (l.filter (fun p => p.1 = r.1)).length :=
        List.length_pos.2 (List.ne_nil_of_mem hmemf)
      omega
    rw [filter_keyed_update_eq]
    rcases List.length_eq_one.1 hlen1 with ⟨q', hq'⟩
    rw [hq']
    simp
  · rename_i ha
    have hnil : l.filter (fun p => p.1 = r.1) = [] := by
      rw [List.filter_eq_nil_iff]
      intro q hq hqk
      exact ha (List.any_eq_true.2 ⟨q, hq, hqk⟩)
    rw [List.filter_append, hnil]
    simp

lemma elim_getLast?_cons {α β : Type} (q : α) (t : List α) (x y : β) (f : α → β) :
    ((q :: t).getLast?).elim x f = ((q :: t).getLast?).elim y f := by
  rcases hgl : (q :: t).getLast? with _ | z
  · exact absurd (List.getLast?_eq_none_iff.1 hgl) (by simp)
  · rw [Option.elim_some, Option.elim_some]

lemma foldl_upsert_filter (records : List (κ × υ)) :
    ∀ (acc : List (κ × υ)) (k : κ), (acc.map Prod.fst).Nodup →
      ((records.foldl (fun t r => upsert_kv t r.1 r.2) acc).map Prod.fst).Nodup ∧
      (records.foldl (fun t r => upsert_kv t r.1 r.2) acc).filter (fun p => p.1 = k)
        = ((records.filter (fun p => p.1 = k)).getLast?).elim
            (acc.filter (fun p => p.1 = k)) (fun q => [q]) := by
  induction records with
  | nil =>
      intro acc k hacc
      exact ⟨hacc, rfl⟩
  | cons r rs ih =>
      intro acc k hacc
      have hacc' := nodup_keys_upsert_kv acc r.1 r.2 hacc
      rcases ih (upsert_kv acc r.1 r.2) k hacc' with ⟨hnd, hfil⟩
      refine ⟨hnd, ?_⟩
      rw [List.foldl_cons, hfil, List.filter_cons]
      by_cases hk : r.1 = k
      · rw [if_pos (decide_eq_true hk)]
        rcases hrs : rs.filter (fun p => p.1 = k) with _ | ⟨q, t⟩
        · rw [hrs, List.getLast?_nil, Option.elim_none, List.getLast?_singleton,
            Option.elim_some, ← hk]
          exact filter_upsert_kv_eq acc r hacc
        · rw [hrs, List.getLast?_cons_cons]
          exact elim_getLast?_cons q t _ _ _
      · rw [if_neg (by simpa using hk)]
        rcases hrs : rs.filter (fun p => p.1 = k) with _ | ⟨q, t⟩
        · rw [hrs, List.getLast?_nil, Option.elim_none, Option.elim_none]
          exact filter_upsert_kv_ne acc r.1 r.2 k hk
        · rw [hrs]
          exact elim_getLast?_cons q t _ _ _

end UpsertLemmas

/-- C6: for every batch containing two or more records with the same
natural/primary-key tuple, exactly one row for that key survives
`_upsert_batch` into a table with unique keys, namely the last occurrence of
that key in fetch order.  A record is modelled as a pair of its primary-key
tuple and its non-key columns. -/
theorem C6_upsert_last_occurrence_wins {κ υ : Type} [DecidableEq κ] :
    ∀ (table records : List (κ × υ)) (k : κ),
      (table.map Prod.fst).Nodup →
      2 ≤ (records.filter (fun p => p.1 = k)).length →
      ∃ r, (records.filter (fun p => p.1 = k)).getLast? = some r ∧
        (upsert_batch table records).filter (fun p => p.1 = k) = [r] := by
  intro table records k htab hlen
  have hded := (foldl_upsert_filter records [] k (by simp)).2
  have hne : records.filter (fun p => p.1 = k) ≠ [] := by
    intro hnil
    rw [hnil] at hlen
    simp at hlen
  rcases hgl : (records.filter (fun p => p.1 = k)).getLast? with _ | q
  · exact absurd (List.getLast?_eq_none_iff.1 hgl) hne
  · refine ⟨q, hgl, ?_⟩
    rw [hgl, Option.elim_some] at hded
    have hbatch := (foldl_upsert_filter (dedup_last records) table k htab).2
    unfold dedup_last at hbatch
    rw [hded, List.getLast?_singleton, Option.elim_some] at hbatch
    unfold upsert_batch dedup_last
    exact hbatch

/-- C6 witness: a batch with two revisions of the same contacts natural key
`(registration_id, contact_type, full_name)`; the second revision survives. -/
theorem C6_upsert_last_occurrence_wins_witness :
    ∃ r, (([((1, "Owner", "ACME"), "old"), ((1, "Owner", "ACME"), "new")] :
            List ((Int × String × String) × String)).filter
            (fun p => p.1 = (1, "Owner", "ACME"))).getLast? = some r ∧
      (upsert_batch ([] : List ((Int × String × String) × String))
          [((1, "Owner", "ACME"), "old"), ((1, "Owner", "ACME"), "new")]).filter
          (fun p => p.1 = (1, "Owner", "ACME")) = [r] :=
  C6_upsert_last_occurrence_wins [] [((1, "Owner", "ACME"), "old"), ((1, "Owner", "ACME"), "new")]
    (1, "Owner", "ACME") (by simp) (by decide)

section FetchAllLemmas

variable {ρ : Type}

lemma fetch_all_fuel_none (fetch : Nat → List ρ) (page_size : Nat) :
    ∀ (fuel start N : Nat), fuel ≤ N →
      (∀ j, j < N → ¬ stop_page fetch page_size (start + page_size * j)) →
      fetch_all_fuel fetch page_size fuel start = none := by
  intro fuel
  induction fuel with
  | zero => intro start N _ _; rfl
  | succ f ih =>
      intro start N hle hno
      have h0 : ¬ stop_page fetch page_size (start + page_size * 0) :=
        hno 0 (by omega)
      rw [Nat.mul_zero, Nat.add_zero] at h0
      rw [stop_page, not_or] at h0
      simp only [fetch_all_fuel]
      rw [if_neg (by simpa [List.isEmpty_iff] using h0.1),
        if_neg (by simpa using h0.2)]
      have ihr : fetch_all_fuel fetch page_size f (start + page_size) = none := by
        refine ih (start + page_size) (N - 1) (by omega) ?_
        intro j hj
        have := hno (j + 1) (by omega)
        rw [Nat.mul_succ] at this
        have harith : start + (page_size * j + page_size)
            = start + page_size + page_size * j := by omega
        rw [harith] at this
        exact this
      rw [ihr]

lemma fetch_all_fuel_some (fetch : Nat → List ρ) (page_size : Nat) :
    ∀ (N start fuel : Nat),
      (∀ j, j < N → ¬ stop_page fetch page_size (start + page_size * j)) →
      stop_page fetch page_size (start + page_size * N) →
      N < fuel →
      fetch_all_fuel fetch page_size fuel start
        = some ((List.range (N + 1)).flatMap (fun j => fetch (start + page_size * j))) := by
  intro N
  induction N with
  | zero =>
      intro start fuel _ hstop hfuel
      rw [Nat.mul_zero, Nat.add_zero] at hstop
      obtain ⟨f, rfl⟩ : ∃ f, fuel = f + 1 := ⟨fuel - 1, by omega⟩
      have hrange : (List.range 1).flatMap (fun j => fetch (start + page_size * j))
          = fetch start := by
        have h1 : List.range 1 = [0] := rfl
        rw [h1, List.flatMap_cons]
        simp
      rw [hrange]
      rcases hstop with hemp | hshort
      · simp only [fetch_all_fuel]
        rw [if_pos (by simpa [List.isEmpty_iff] using hemp), hemp]
      · simp only [fetch_all_fuel]
        by_cases hemp : fetch start = []
        · rw [if_pos (by simpa [List.isEmpty_iff] using hemp), hemp]
        · rw [if_neg (by simpa [List.isEmpty_iff] using hemp),
            if_pos (by simpa using hshort)]
  | succ n ih =>
      intro start fuel hno hstop hfuel
      obtain ⟨f, rfl⟩ : ∃ f, fuel = f + 1 := ⟨fuel - 1, by omega⟩
      have h0 : ¬ stop_page fetch page_size (start + page_size * 0) :=
        hno 0 (by omega)
      rw [Nat.mul_zero, Nat.add_zero] at h0
      rw [stop_page, not_or] at h0
      simp only [fetch_all_fuel]
      rw [if_neg (by simpa [List.isEmpty_iff] using h0.1),
        if_neg (by simpa using h0.2)]
      have ihr : fetch_all_fuel fetch page_size f (start + page_size)
          = some ((List.range (n + 1)).flatMap
              (fun j => fetch (start + page_size + page_size * j))) := by
        refine ih (start + page_size) f ?_ ?_ (by omega)
        · intro j hj
          have := hno (j + 1) (by omega)
          rw [Nat.mul_succ] at this
          have harith : start + (page_size * j + page_size)
              = start + page_size + page_size * j := by omega
          rw [harith] at this
          exact this
        · have := hstop
          rw [Nat.mul_succ] at this
          have harith : start + (page_size * n + page_size)
              = start + page_size + page_size * n := by omega
          rw [harith] at this
          exact this
      rw [ihr]
      have hflat : (List.range (n + 1 + 1)).flatMap (fun j => fetch (start + page_size * j))
          = fetch start ++ (List.range (n + 1)).flatMap
              (fun j => fetch (start + page_size + page_size * j)) := by
        rw [List.range_succ_eq_map, List.flatMap_cons, Nat.mul_zero, Nat.add_zero,
          List.flatMap_map]
        congr 1
        refine List.flatMap_congr ?_
        intro j _
        have harith : start + page_size * Nat.succ j
            = start + page_size + page_size * j := by
          rw [Nat.mul_succ]; omega
        rw [harith]
      rw [hflat]

end FetchAllLemmas

/-- C8: `fetch_all` yields records page by page from the start offset,
advancing the offset by the page size after each page, and terminates exactly
at the first page that is empty or shorter than the requested page size: with
fewer loop iterations available than needed to reach that page the loop has
not finished (`none`), and with at least that many it returns the finite
concatenation of all pages up to and including the terminating one, each page
`j` being fetched at offset `start + page_size * j`. -/
theorem C8_fetch_all_pagination {ρ : Type} :
    ∀ (fetch : Nat → List ρ) (page_size start N : Nat),
      (∀ j, j < N → ¬ stop_page fetch page_size (start + page_size * j)) →
      stop_page fetch page_size (start + page_size * N) →
      (∀ fuel, fuel ≤ N → fetch_all_fuel fetch page_size fuel start = none) ∧
      (∀ fuel, N < fuel →
        fetch_all_fuel fetch page_size fuel start
          = some ((List.range (N + 1)).flatMap (fun j => fetch (start + page_size * j)))) := by
  intro fetch page_size start N hno hstop
  constructor
  · intro fuel hfuel
    exact fetch_all_fuel_none fetch page_size fuel start N hfuel hno
  · intro fuel hfuel
    exact fetch_all_fuel_some fetch page_size N start fuel hno hstop hfuel

/-- C8 witness: a two-page dataset (a full page of size 2, then a short page)
fetched with page size 2 from offset 0. -/
theorem C8_fetch_all_pagination_witness :
    fetch_all_fuel (fun off => if off = 0 then [10, 11] else if off = 2 then [12] else []) 2 2 0
      = some ((List.range 2).flatMap
          (fun j => (fun off => if off = 0 then [10, 11] else if off = 2 then [12] else [])
            (0 + 2 * j))) :=
  (C8_fetch_all_pagination
      (fun off => if off = 0 then [10, 11] else if off = 2 then [12] else []) 2 0 1
      (by
        intro j hj
        interval_cases j
        · intro hstop
          rcases hstop with h | h
          · exact absurd h (by decide)
          · exact absurd h (by decide))
      (by
        right
        decide)).2 2 (by omega)

/-- C2: counterexample.  An HPD violation record with a present identifier
(`violationid = 123`) whose BBL cannot be resolved is SKIPPED by
`HPDViolationsExtractor.transform_record` (`if not bbl: return None`), not
kept with a null BBL as the claim states for the violations extractors. -/
theorem C2_hpd_violations_skip_counterexample :
    safe_int (rget hpd_raw_no_bbl "violationid") = some 123 ∧
    make_bbl (py_or_str (rget hpd_raw_no_bbl "boroid") (rget hpd_raw_no_bbl "boro"))
        (rget hpd_raw_no_bbl "block") (rget hpd_raw_no_bbl "lot") = none ∧
    hpd_violations_transform hpd_raw_no_bbl = none :=
  ⟨rfl, rfl, rfl⟩

/-- C2 (amended): for every raw record whose source identifier is present but
whose BBL cannot be resolved, the DOB violations, 311 complaints and
evictions transforms keep the record with a null BBL, while the HPD
violations and HPD registrations transforms skip it (`None`). -/
theorem C2_null_bbl_handling :
    (∀ (r : RawRecord) (vid : Int),
        safe_int (rget r "violationid") = some vid → vid ≠ 0 →
        make_bbl (py_or_str (rget r "boroid") (rget r "boro"))
            (rget r "block") (rget r "lot") = none →
        hpd_violations_transform r = none) ∧
    (∀ (r : RawRecord) (rid : Int),
        safe_int (rget r "registrationid") = some rid → rid ≠ 0 →
        make_bbl (py_or_str (rget r "boroid") (rget r "boro"))
            (rget r "block") (rget r "lot") = none →
        hpd_registrations_transform r = none) ∧
    (∀ (r : RawRecord) (isn : String),
        py_or_str (rget r "isn_dob_bis_viol") (rget r "isn_dob_bis_extract") = some isn →
        isn ≠ "" →
        make_bbl (rget r "boro") (rget r "block") (rget r "lot") = none →
        dob_violations_transform r = some (isn, none)) ∧
    (∀ (r : RawRecord) (uk : Int),
        safe_int (rget r "unique_key") = some uk → uk ≠ 0 →
        (rget r "bbl" = none ∨ rget r "bbl" = some "") →
        complaints_311_transform r = some (uk, none)) ∧
    (∀ (r : RawRecord) (ci : String),
        py_or_str (rget r "court_index_number") (rget r "courtindexnumber") = some ci →
        ci ≠ "" →
        (rget r "bbl" = none ∨ rget r "bbl" = some "") →
        evictions_transform r = some (ci, none)) := by
  refine ⟨?_, ?_, ?_, ?_, ?_⟩
  · intro r vid h1 h2 h3
    simp only [hpd_violations_transform, h1, h3, if_neg h2]
  · intro r rid h1 h2 h3
    simp only [hpd_registrations_transform, h1, h3, if_neg h2]
  · intro r isn h1 h2 h3
    simp only [dob_violations_transform, h1, h3, if_neg h2]
  · intro r uk h1 h2 hb
    rcases hb with hb | hb
    all_goals simp [complaints_311_transform, h1, hb, if_neg h2]
  · intro r ci h1 h2 hb
    rcases hb with hb | hb
    all_goals simp [evictions_transform, h1, hb, if_neg h2]

/-- C2 (amended) witness at concrete records: the HPD violations transform
skips an id-bearing record without a BBL, the DOB violations transform keeps
one with a null BBL. -/
theorem C2_null_bbl_handling_witness :
    hpd_violations_transform hpd_raw_no_bbl = none ∧
    dob_violations_transform [("isn_dob_bis_viol", "987")] = some ("987", none) :=
  ⟨C2_null_bbl_handling.1 hpd_raw_no_bbl 123 rfl (by decide) rfl,
   C2_null_bbl_handling.2.2.1 [("isn_dob_bis_viol", "987")] "987" rfl (by decide) rfl⟩

/-- C9: `_normalize_name` uppercases, strips legal-entity suffixes at word
boundaries, strips punctuation and collapses whitespace, so
`"ABC Realty, LLC."` becomes `"ABC REALTY"`; `_normalize_address`
uppercases, abbreviates street types, removes apartment/suite/unit
designators with their following token, strips punctuation and collapses
whitespace, so `"123 Main Street, Apt 4B"` becomes `"123 MAIN ST"`. -/
theorem C9_normalization_examples :
    normalize_name "ABC Realty, LLC." = "ABC REALTY" ∧
    normalize_address "123 Main Street, Apt 4B" = "123 MAIN ST" :=
  ⟨rfl, rfl⟩


lemma units_py_eq_sql (tu : Option Int) : units_py tu = units_sql tu := by
  cases tu with
  | none => rfl
  | some n =>
      rcases eq_or_ne n 0 with h0 | h0
      · subst h0; decide
      · simp [units_py, units_sql, h0]

lemma class_sum (l : List ViolationRow)
    (h : ∀ v ∈ l, v.violation_class = some "A" ∨ v.violation_class = some "B" ∨
      v.violation_class = some "C") :
    l.length = count_class l "A" + count_class l "B" + count_class l "C" := by
  induction l with
  | nil => rfl
  | cons v t ih =>
      have hv := h v (List.mem_cons_self v t)
      have ht := ih (fun w hw => h w (List.mem_cons_of_mem v hw))
      rcases hv with hcls | hcls | hcls <;>
        · simp only [count_class, List.filter_cons, hcls, List.length_cons] at ht ⊢
          simp
          omega

lemma days_filter_eq (l : List ComplaintRow)
    (h : ∀ c ∈ l, ∀ d, c.days_to_resolve = some d → 0 < d) :
    l.filterMap (fun c => c.days_to_resolve)
      = l.filterMap (fun c =>
          match c.days_to_resolve with
          | none => none
          | some d => if 0 < d then some d else none) := by
  induction l with
  | nil => rfl
  | cons c t ih =>
      have ht := ih (fun w hw => h w (List.mem_cons_of_mem c hw))
      rcases hd : c.days_to_resolve with _ | d
      · simp only [List.filterMap_cons, hd, ht]
      · have hpos := h c (List.mem_cons_self c t) d hd
        simp only [List.filterMap_cons, hd, if_pos hpos, ht]

lemma owner_mem_has_row (db : ScoringDB) (bbl : String) :
    ∀ t ∈ owner_join db bbl, portfolio_has_row db t.2.2.id = true := by
  intro t ht
  unfold owner_join at ht
  simp only [List.mem_flatMap, List.mem_filter, List.mem_map,
    decide_eq_true_eq] at ht
  obtain ⟨rc, ⟨hrc, _⟩, hr, ⟨hhr, hhrid, _⟩, op, ⟨hop, hopid⟩, rfl⟩ := ht
  unfold portfolio_has_row
  rw [List.any_eq_true]
  refine ⟨rc, hrc, ?_⟩
  rw [Bool.and_eq_true]
  constructor
  · exact decide_eq_true hopid
  · rw [List.any_eq_true]
    exact ⟨hr, hhr, decide_eq_true hhrid⟩

lemma ownership_eq (db : ScoringDB) (bbl : String)
    (hlen : (owner_join db bbl).length ≤ 1)
    (hllc : ∀ t ∈ owner_join db bbl, t.2.2.is_llc = 0 ∨ t.2.2.is_llc = 1)
    (htb : ∀ t ∈ owner_join db bbl,
      t.2.2.total_buildings = some (portfolio_building_count db t.2.2.id)) :
    sql_ownership_score db bbl = compute_ownership_score (py_owner_row db bbl) := by
  rcases hoj : owner_join db bbl with _ | ⟨t, ts⟩
  · simp [sql_ownership_score, sql_ownership_inputs, py_owner_row, hoj,
      compute_ownership_score]
  · have hts : ts = [] := by
      rw [hoj] at hlen
      simpa using hlen
    subst hts
    have hmem : t ∈ owner_join db bbl := by
      rw [hoj]; exact List.mem_singleton_self t
    have hhas := owner_mem_has_row db bbl t hmem
    have htb' := htb t hmem
    have hnn : (0 : Int) ≤ portfolio_building_count db t.2.2.id :=
      Int.natCast_nonneg _
    unfold sql_ownership_score sql_ownership_inputs py_owner_row
    rw [hoj]
    simp only [List.filter_cons, hhas, if_pos, List.filter_nil, List.foldl_nil,
      List.head?_cons, Option.map_some']
    rw [htb']
    simp only [compute_ownership_score]
    rcases eq_or_ne (portfolio_building_count db t.2.2.id) 0 with hz | hz
    · rcases hllc t hmem with hl | hl
      all_goals simp [hz, hl]
    · rcases hllc t hmem with hl | hl
      all_goals simp [hl, if_neg hz]


lemma violation_formula_eq (cC cB cA : Nat) (u : Int) :
    ((cC : Rat) * 10 + (cB : Rat) * 5 + (cA : Rat)) / (u : Rat) * 10 ⊓ 100
      = compute_violation_score (cC : Int) (cB : Int) (cA : Int) u := by
  simp only [compute_violation_score]
  congr 1
  push_cast
  ring

lemma complaints_formula_eq (n : Nat) (u : Int) :
    (n : Rat) / (u : Rat) * 20 ⊓ 100 = compute_complaints_score (n : Int) u := by
  simp only [compute_complaints_score]
  congr 1

lemma eviction_formula_eq (n : Nat) (u : Int) :
    (n : Rat) / (u : Rat) * 50 ⊓ 100 = compute_eviction_score (n : Int) u := by
  simp only [compute_eviction_score]
  congr 1

lemma overall_formula_eq (v c e o r : Rat) :
    (v * 0.30 + c * 0.20 + e * 0.25 + o * 0.15 + r * 0.10) ⊓ 100
      = compute_overall_score v c e o r := rfl

/-- C3 (amended): the set-based SQL recompute and the per-building in-memory
computation produce identical BuildingScore rows for a building provided
that: every violation of the building has class A, B or C; every complaint of
the building has a null or positive `days_to_resolve`; the building has at
most one owner-contact join row; that row's portfolio LLC flag is 0 or 1 and
its stored `total_buildings` equals the count recomputed from current
contacts and registrations. -/
theorem C3_sql_py_equivalence :
    ∀ (db : ScoringDB) (b : BuildingRow),
      (∀ v ∈ db.hpd_violations, v.bbl = some b.bbl →
        v.violation_class = some "A" ∨ v.violation_class = some "B" ∨
          v.violation_class = some "C") →
      (∀ c ∈ db.complaints_311, c.bbl = some b.bbl →
        ∀ d, c.days_to_resolve = some d → 0 < d) →
      (owner_join db b.bbl).length ≤ 1 →
      (∀ t ∈ owner_join db b.bbl, t.2.2.is_llc = 0 ∨ t.2.2.is_llc = 1) →
      (∀ t ∈ owner_join db b.bbl,
        t.2.2.total_buildings = some (portfolio_building_count db t.2.2.id)) →
      sql_score_row db b = py_score_row db b := by
  intro db b hclass hdays hlen hllc htb
  have hu : units_sql b.total_units = units_py b.total_units :=
    (units_py_eq_sql b.total_units).symm
  have hclass' : ∀ v ∈ violation_rows db b.bbl,
      v.violation_class = some "A" ∨ v.violation_class = some "B" ∨
        v.violation_class = some "C" := by
    intro v hv
    have hm := List.mem_filter.1 hv
    exact hclass v hm.1 (of_decide_eq_true hm.2)
  have htv := class_sum (violation_rows db b.bbl) hclass'
  have hdays' : ∀ c ∈ complaint_rows db b.bbl, ∀ d, c.days_to_resolve = some d → 0 < d := by
    intro c hc d hd
    have hm := List.mem_filter.1 hc
    exact hdays c hm.1 (of_decide_eq_true hm.2) d hd
  have havg : sql_avg_resolution db b.bbl = py_avg_resolution db b.bbl := by
    unfold sql_avg_resolution py_avg_resolution
    rw [days_filter_eq _ hdays']
  have hown := ownership_eq db b.bbl hlen hllc htb
  have hgrade : ∀ s : Rat, building_grade_sql s = score_to_grade s := fun s => rfl
  unfold sql_score_row py_score_row
  simp only [hu, hown, havg, htv]
  rcases havg2 : py_avg_resolution db b.bbl with _ | d
  · simp only [violation_formula_eq, complaints_formula_eq, eviction_formula_eq,
      compute_resolution_score, overall_formula_eq, hgrade]
  · simp only [violation_formula_eq, complaints_formula_eq, eviction_formula_eq,
      compute_resolution_score]
    by_cases hd : d ≤ 30
    · simp only [if_pos hd, overall_formula_eq, hgrade]
    · simp only [if_neg hd]
      have hid : (d - 30) / 10 * 20 = (d - 30) * 2 := by ring
      simp only [hid, overall_formula_eq, hgrade]

/-- C3: counterexample.  For a database whose single complaint has
`days_to_resolve = 0`, the SQL path stores `avg_resolution_days = 0` (SQL
`AVG` includes non-positive day counts) while the per-building path stores
`NULL` (its query filters `days_to_resolve > 0`), so `compute_all_scores` and
`_compute_building_score` produce different BuildingScore rows for the same
database state, refuting the claimed equivalence. -/
theorem C3_sql_py_counterexample :
    (sql_score_row c3_db c3_building).avg_resolution_days = some 0 ∧
    (py_score_row c3_db c3_building).avg_resolution_days = none ∧
    sql_score_row c3_db c3_building ≠ py_score_row c3_db c3_building := by
  have hsql : (sql_score_row c3_db c3_building).avg_resolution_days = some 0 := by
    show sql_avg_resolution c3_db c3_building.bbl = some 0
    norm_num [sql_avg_resolution, complaint_rows, c3_db, c3_building, list_avg,
      List.filter_cons, List.filter_nil, List.filterMap_cons, List.filterMap_nil]
  have hpy : (py_score_row c3_db c3_building).avg_resolution_days = none := by
    show py_avg_resolution c3_db c3_building.bbl = none
    norm_num [py_avg_resolution, complaint_rows, c3_db, c3_building, list_avg,
      List.filter_cons, List.filter_nil, List.filterMap_cons, List.filterMap_nil]
  refine ⟨hsql, hpy, fun h => ?_⟩
  have hproj := congrArg ScoreRow.avg_resolution_days h
  rw [hsql, hpy] at hproj
  exact Option.noConfusion hproj

/-- C3 (amended) witness at a concrete database satisfying the hypotheses. -/
theorem C3_sql_py_equivalence_witness :
    sql_score_row c3_witness_db c3_building = py_score_row c3_witness_db c3_building :=
  C3_sql_py_equivalence c3_witness_db c3_building
    (by intro v hv; simp [c3_witness_db] at hv)
    (by intro c hc; simp [c3_witness_db] at hc)
    (by decide)
    (by intro t ht; simp [c3_witness_db, owner_join] at ht)
    (by intro t ht; simp [c3_witness_db, owner_join] at ht)
